import Mathlib

/-!
# Verification of the tunisia-flights-scraper core pipeline

A shallow embedding, in Lean 4, of the pure logic of the scraper service:

* `src/app/services/backend_api_client.py` — the reporting client
  (`BackendApiClient.__init__`, `report_scraped_data` with chunking and
  per-chunk retry),
* `src/app/services/nouvelair_scraper_service.py` — the Nouvelair scraper
  (JSON-entry extraction loop, dynamic route enumeration, run control flow),
* `src/app/services/tunisair_scraper_service.py` — the Tunisair scraper
  (`_get_exchange_rate`, the markup extractor `_extract_prices`, dynamic
  route enumeration, run control flow).

Network effects are modelled by explicit transport oracles (functions from
attempt indices to outcomes); Python floats are modelled as exact rationals;
Python `round` (banker's rounding) is modelled by `pyRound`; exceptions are
modelled with `Option`/`Except`.
-/

namespace TunisiaFlights

/-! ## Reporting client: `backend_api_client.py`

Constants from the top of the file: `POST_CHUNK_SIZE = 150`,
`REQUEST_RETRIES = 3`. -/

def POST_CHUNK_SIZE : Nat := 150

def REQUEST_RETRIES : Nat := 3

/-- The slicing loop `for i in range(0, len(xs), c): chunk = xs[i:i+c]`
for a positive chunk size `c`, as the list of successive chunks. -/
def chunksOf (c : Nat) : List α → List (List α)
  | [] => []
  | x :: xs => (x :: xs.take (c - 1)) :: chunksOf c (xs.drop (c - 1))
termination_by xs => xs.length
decreasing_by simp [List.length_drop]; omega

/-- `BackendApiClient.__init__`: raises `ValueError` on an empty (falsy)
`base_url`, otherwise stores it on the client. -/
structure BackendApiClient where
  base_url : String
deriving DecidableEq, Repr

/-- The constructor of `BackendApiClient` as a fallible function:
`if not base_url: raise ValueError(...)`. -/
def mkBackendApiClient (base_url : String) : Except String BackendApiClient :=
  if base_url = "" then .error "Backend base_url cannot be empty."
  else .ok ⟨base_url⟩

/-- The inner retry loop of `report_scraped_data` for one chunk:
`for attempt in range(REQUEST_RETRIES)` — POST, break on success, remember
the last exception otherwise.  `t a` is the outcome of the `a`-th POST of
this chunk.  Returns the list of attempt outcomes (`true` = 2xx response)
in order, and the `last_exception` left after the loop. -/
def runAttempts (t : Nat → Except ε Unit) : List Bool × Option ε :=
  match t 0 with
  | .ok _ => ([true], none)
  | .error _ =>
    match t 1 with
    | .ok _ => ([false, true], none)
    | .error _ =>
      match t 2 with
      | .ok _ => ([false, false, true], none)
      | .error e => ([false, false, false], some e)

/-- Observable outcome of one `report_scraped_data` call: the chunks
successfully sent (in order), the trace of every POST made (chunk index,
whether that POST succeeded), and the raised exception, if any. -/
structure ReportOut (α ε : Type) where
  sent : List (List α)
  trace : List (Nat × Bool)
  err : Option ε
deriving DecidableEq, Repr

/-- The chunk loop of `report_scraped_data`, starting at chunk index `k`:
each chunk runs the 3-attempt retry loop; if `last_exception` survives the
loop the exception is raised (no further chunk is attempted), otherwise the
next chunk follows. -/
def reportChunks (trans : Nat → Nat → Except ε Unit) :
    Nat → List (List α) → ReportOut α ε
  | _, [] => ⟨[], [], none⟩
  | k, c :: cs =>
    match runAttempts (fun j => trans k j) with
    | (att, none) =>
      let r := reportChunks trans (k + 1) cs
      ⟨c :: r.sent, att.map (fun b => (k, b)) ++ r.trace, r.err⟩
    | (att, some e) => ⟨[], att.map (fun b => (k, b)), some e⟩

/-- `BackendApiClient.report_scraped_data`: early return on an empty batch,
otherwise slice into chunks of `POST_CHUNK_SIZE` and send each with retry.
`trans k a` is the transport outcome of attempt `a` of chunk `k`. -/
def report_scraped_data (trans : Nat → Nat → Except ε Unit)
    (scraped_flights : List α) : ReportOut α ε :=
  if scraped_flights.isEmpty then ⟨[], [], none⟩
  else reportChunks trans 0 (chunksOf POST_CHUNK_SIZE scraped_flights)

/-- A fake transport on which every POST returns 2xx. -/
def alwaysOkTransport : Nat → Nat → Except Unit Unit := fun _ _ => Except.ok ()

/-- A fake transport on which every POST for chunk 0 returns 2xx and every
POST for any later chunk raises (the error records the attempt index). -/
def failAfterFirstChunkTransport : Nat → Nat → Except Nat Unit :=
  fun i a => if i = 0 then Except.ok () else Except.error a

/-! ## Python string and number primitives

The scrapers clean price strings with `str.replace`, parse them with
`float(...)`, and round with `round(x, ndigits)`.  Floats are modelled as
exact rationals; `round` is modelled as round-half-to-even on rationals
(Python's rounding mode; the binary representation error of IEEE doubles is
outside this model). -/

/-- `needle` is a prefix of the second list. -/
def leadsWith : List Char → List Char → Bool
  | [], _ => true
  | _ :: _, [] => false
  | a :: as, b :: bs => a == b && leadsWith as bs

/-- The Python `in` test on strings: `needle` occurs somewhere in the list. -/
def containsSub (needle : List Char) : List Char → Bool
  | [] => needle.isEmpty
  | h :: t => leadsWith needle (h :: t) || containsSub needle t

/-- `str.replace(needle, repl)`: replace every non-overlapping occurrence,
scanning left to right.  Fuel-structured so the kernel can evaluate it; the
fuel is the length of the scanned list. -/
def pyReplaceFuel (needle repl : List Char) : Nat → List Char → List Char
  | 0, s => s
  | _, [] => []
  | fuel + 1, h :: t =>
    match needle with
    | [] => h :: pyReplaceFuel [] repl fuel t
    | n0 :: nrest =>
      if n0 == h && leadsWith nrest t then
        repl ++ pyReplaceFuel (n0 :: nrest) repl fuel (t.drop nrest.length)
      else h :: pyReplaceFuel (n0 :: nrest) repl fuel t

/-- `str.replace(needle, repl)` on character lists. -/
def pyReplace (needle repl s : List Char) : List Char :=
  pyReplaceFuel needle repl s.length s

/-- Numeric value of a digit string (most significant first). -/
def natOfDigits (cs : List Char) : Nat :=
  cs.foldl (fun acc c => acc * 10 + (c.toNat - 48)) 0

/-- `10 ^ n`, kept in `Nat` so the kernel evaluates it directly. -/
def pow10 : Nat → Nat
  | 0 => 1
  | n + 1 => 10 * pow10 n

/-- The unsigned part of Python `float(s)` for plain decimal notation:
digits, optionally a dot and more digits, at least one digit in total.
(Exponent, infinity and nan spellings never occur in the scraped price
strings and are not modelled.) -/
def pyFloatCore (cs : List Char) : Option ℚ :=
  let ip := cs.takeWhile Char.isDigit
  let rest := cs.dropWhile Char.isDigit
  match rest with
  | [] => if ip.isEmpty then none else some (mkRat (natOfDigits ip) 1)
  | '.' :: fp =>
    if fp.all Char.isDigit && !(ip.isEmpty && fp.isEmpty) then
      some (mkRat (natOfDigits (ip ++ fp)) (pow10 fp.length))
    else none
  | _ => none

/-- Python `float(s)` (plain decimals, optional sign), returning `none`
where Python raises `ValueError`. -/
def pyFloat (s : String) : Option ℚ :=
  match s.data with
  | '-' :: t => (pyFloatCore t).map (fun q => mkRat (-q.num) q.den)
  | '+' :: t => pyFloatCore t
  | t => pyFloatCore t

/-- Exact product of two rationals, built through `mkRat` so the kernel
can evaluate it (`qmul_eq` identifies it with `·*·` on `ℚ`). -/
def qmul (a b : ℚ) : ℚ := mkRat (a.num * b.num) (a.den * b.den)

/-- Exact difference of two rationals through `mkRat`
(`qsub_eq` identifies it with `·-·` on `ℚ`). -/
def qsub (a b : ℚ) : ℚ :=
  mkRat (a.num * (b.den : Int) - b.num * (a.den : Int)) (a.den * b.den)

/-- Exact negation of a rational through `mkRat`
(`qneg_eq` identifies it with `-·` on `ℚ`). -/
def qneg (a : ℚ) : ℚ := mkRat (-a.num) a.den

/-- Strict comparison of rationals by cross-multiplication
(`qltb_iff` identifies it with `·<·` on `ℚ`). -/
def qltb (a b : ℚ) : Bool := a.num * (b.den : Int) < b.num * (a.den : Int)

/-- Non-strict comparison of rationals by cross-multiplication
(`qleb_iff` identifies it with `·≤·` on `ℚ`). -/
def qleb (a b : ℚ) : Bool := a.num * (b.den : Int) ≤ b.num * (a.den : Int)

/-- Floor of a rational as an integer (den is always positive). -/
def ratFloorZ (q : ℚ) : Int := Int.fdiv q.num (q.den : Int)

/-- Round a rational to the nearest integer, ties to even — the rounding
mode of Python `round`. -/
def roundHalfEven (q : ℚ) : Int :=
  let f := ratFloorZ q
  let r := qsub q (mkRat f 1)
  if qltb r (mkRat 1 2) then f
  else if qltb (mkRat 1 2) r then f + 1
  else if f % 2 = 0 then f else f + 1

/-- Python `round(q, ndigits)` on the exact-rational model of floats. -/
def pyRound (ndigits : Nat) (q : ℚ) : ℚ :=
  mkRat (roundHalfEven (qmul q (mkRat (pow10 ndigits) 1))) (pow10 ndigits)

/-! ## Dates

`datetime.strptime(s, "%Y-%m-%d")` followed by `.isoformat()`.  The model
parses the zero-padded `YYYY-MM-DD` form (the only form the carriers emit)
and validates month and day against the Gregorian calendar, as `strptime`
does; `.isoformat()` of the resulting midnight datetime is
`YYYY-MM-DDT00:00:00`. -/

structure PyDate where
  year : Nat
  month : Nat
  day : Nat
deriving DecidableEq, Repr

def isLeapYear (y : Nat) : Bool := (y % 4 == 0 && y % 100 != 0) || y % 400 == 0

def daysInMonth (y m : Nat) : Nat :=
  if m == 2 then (if isLeapYear y then 29 else 28)
  else if m == 4 || m == 6 || m == 9 || m == 11 then 30
  else 31

def digitVal (c : Char) : Option Nat :=
  if c.isDigit then some (c.toNat - 48) else none

/-- `datetime.strptime(s, "%Y-%m-%d")`, `none` where Python raises. -/
def parseDate (s : String) : Option PyDate :=
  match s.data with
  | [y3, y2, y1, y0, c1, m1, m0, c2, d1, d0] =>
    if c1 == '-' && c2 == '-' then
      match digitVal y3, digitVal y2, digitVal y1, digitVal y0,
            digitVal m1, digitVal m0, digitVal d1, digitVal d0 with
      | some a, some b, some c, some d, some e, some f, some g, some h =>
        let y := ((a * 10 + b) * 10 + c) * 10 + d
        let m := e * 10 + f
        let dy := g * 10 + h
        if 1 ≤ m ∧ m ≤ 12 ∧ 1 ≤ dy ∧ dy ≤ daysInMonth y m then some ⟨y, m, dy⟩
        else none
      | _, _, _, _, _, _, _, _ => none
    else none
  | _ => none

def pad2 (n : Nat) : String := if n < 10 then "0" ++ toString n else toString n

def pad4 (n : Nat) : String :=
  if n < 10 then "000" ++ toString n
  else if n < 100 then "00" ++ toString n
  else if n < 1000 then "0" ++ toString n
  else toString n

/-- `.isoformat()` of a date parsed at midnight. -/
def isoFormatMidnight (d : PyDate) : String :=
  pad4 d.year ++ "-" ++ pad2 d.month ++ "-" ++ pad2 d.day ++ "T00:00:00"

/-! ## Fare records and the two extractors -/

/-- The normalized record reported to the backend. -/
structure FareRecord where
  departureDate : String
  price : ℚ
  priceEur : ℚ
  departureAirportCode : String
  arrivalAirportCode : String
  airlineCode : String
deriving DecidableEq, Repr

/-- `nouvelair_scraper_service.AIRLINE_CODE`. -/
def AIRLINE_CODE_BJ : String := "BJ"

/-- `nouvelair_scraper_service.CURRENCY_ID` — the fixed `currency_id`
query parameter of the availability API (EUR). -/
def CURRENCY_ID : Nat := 2

/-- One entry of the `data` array of a Nouvelair availability response:
its `"price"` field (as text; `none` when the key is missing — `KeyError`)
and its `"date"` field. -/
structure NvEntry where
  price : Option String
  date : Option String
deriving DecidableEq, Repr

/-- The body of the per-entry loop in `NouvelairScraper.run`:
`float(...)` the price (`ValueError`/`TypeError`/`KeyError` skip the
entry), drop non-positive prices, `strptime` the date (failure skips the
entry), and otherwise build the normalized record with
`priceEur = price`. -/
def nouvelairExtractEntry (dep_code arr_code : String) (e : NvEntry) :
    Option FareRecord :=
  match e.price.bind pyFloat with
  | none => none
  | some p =>
    if qleb p 0 then none
    else
      match e.date.bind parseDate with
      | none => none
      | some d =>
        some ⟨isoFormatMidnight d, p, p, dep_code, arr_code, AIRLINE_CODE_BJ⟩

/-- The full per-route extraction loop of `NouvelairScraper.run`. -/
def nouvelairExtract (dep arr : String) (entries : List NvEntry) :
    List FareRecord :=
  entries.filterMap (nouvelairExtractEntry dep arr)

/-- The query parameters built by
`NouvelairScraper._get_nouvelair_flight_availability`. -/
structure NvAvailabilityParams where
  departure_code : String
  destination_code : String
  trip_type : Nat
  currency_id : Nat
deriving DecidableEq, Repr

def nouvelairAvailabilityParams (departure_code destination_code : String) :
    NvAvailabilityParams :=
  ⟨departure_code.toUpper, destination_code.toUpper, 1, CURRENCY_ID⟩

/-- `TunisairScraper.AIRLINE_CODE`. -/
def AIRLINE_CODE_TU : String := "TU"

/-- One `td.available` cell of the Tunisair per-day markup: the
`data-departure` attribute (`none` when absent) and the text of its
`div.val_price_offre` (`none` when the div is absent). -/
structure PriceCell where
  dataDeparture : Option String
  priceText : Option String
deriving DecidableEq, Repr

/-- The fields of one extracted Tunisair flight dict before the route
fields are added by `_scrape_route`. -/
structure TnFlightData where
  price : ℚ
  priceEur : ℚ
  departureDate : String
deriving DecidableEq, Repr

/-- `price_text.replace(" ", "").replace(",", ".").replace(cur, "")`. -/
def cleanPrice (cur : String) (text : String) : String :=
  String.mk (pyReplace cur.data [] (pyReplace [','] ['.'] (pyReplace [' '] [] text.data)))

/-- The body of the per-cell loop of `TunisairScraper._extract_prices`:
skip cells without date attribute, without price div, with empty or `"-"`
price text; parse the date; in EUR-native mode accept only cells whose
text mentions `EUR` (strip and `round(·, 2)`, `priceEur` the same value);
otherwise accept only cells whose text mentions `TND` (strip,
`round(·, 3)`, convert and `round(·, 2)`); parse failures skip the cell. -/
def extractPriceCell (is_eur_native : Bool) (conversion_rate : ℚ)
    (td : PriceCell) : Option TnFlightData :=
  match td.dataDeparture, td.priceText with
  | some date_str, some price_text =>
    if date_str = "" ∨ price_text = "" ∨ price_text = "-" then none
    else
      match parseDate date_str with
      | none => none
      | some d =>
        if is_eur_native && containsSub "EUR".data price_text.data then
          match pyFloat (cleanPrice "EUR" price_text) with
          | none => none
          | some v =>
            let price_val := pyRound 2 v
            some ⟨price_val, price_val, isoFormatMidnight d⟩
        else if !is_eur_native && containsSub "TND".data price_text.data then
          match pyFloat (cleanPrice "TND" price_text) with
          | none => none
          | some v =>
            let price_val := pyRound 3 v
            some ⟨price_val, pyRound 2 (qmul price_val conversion_rate),
              isoFormatMidnight d⟩
        else none
  | _, _ => none

/-- `TunisairScraper._extract_prices` over the list of available cells. -/
def extract_prices (cells : List PriceCell) (is_eur_native : Bool)
    (conversion_rate : ℚ) : List TnFlightData :=
  cells.filterMap (extractPriceCell is_eur_native conversion_rate)

/-! ## Route enumeration and run control flow -/

/-- An entry of the backend airport registry. -/
structure Airport where
  code : String
  name : String
  country : String
deriving DecidableEq, Repr

/-- `itertools.product(xs, ys)` as an ordered list of pairs. -/
def listProd (xs : List α) (ys : List β) : List (α × β) :=
  xs.flatMap (fun x => ys.map (fun y => (x, y)))

/-- `[a['code'] for a in airports if a.get("country") == "TN"]`. -/
def tunisianCodes (airports : List Airport) : List String :=
  (airports.filter (fun a => a.country == "TN")).map (fun a => a.code)

/-- `[a['code'] for a in airports if a.get("country") == "DE"]`. -/
def germanCodes (airports : List Airport) : List String :=
  (airports.filter (fun a => a.country == "DE")).map (fun a => a.code)

/-- The route list built in `NouvelairScraper.run`:
`product(tunisian, german) + product(german, tunisian)`. -/
def nouvelairRoutes (airports : List Airport) : List (String × String) :=
  listProd (tunisianCodes airports) (germanCodes airports) ++
    listProd (germanCodes airports) (tunisianCodes airports)

/-- Observable outcome of `NouvelairScraper.run`: the two early returns,
or completion with the enumerated route list and the reported batch
(`none` when the batch was empty and nothing was reported). -/
inductive NvRunOutcome
  | abortedNoApiKey
  | abortedNoAirports
  | finished (routes : List (String × String))
      (reported : Option (List FareRecord))
deriving DecidableEq, Repr

/-- Is this outcome one of the early returns of `NouvelairScraper.run`? -/
def NvRunOutcome.isAborted : NvRunOutcome → Bool
  | .abortedNoApiKey => true
  | .abortedNoAirports => true
  | .finished _ _ => false

/-- `NouvelairScraper.run`, parameterized by the captured API key, the
airport registry answer, and the per-route availability answers. -/
def nouvelairRun (api_key : Option String) (airports : List Airport)
    (avail : String → String → List NvEntry) : NvRunOutcome :=
  match api_key with
  | none => .abortedNoApiKey
  | some _ =>
    if airports.isEmpty then .abortedNoAirports
    else
      let routes := nouvelairRoutes airports
      let flights := routes.flatMap (fun r => nouvelairExtract r.1 r.2 (avail r.1 r.2))
      .finished routes (if flights.isEmpty then none else some flights)

/-- Observable outcome of `TunisairScraper.run` in dynamic
route-enumeration mode: the two early returns, or completion with both
directional route lists and the reported batch. -/
inductive TuRunOutcome
  | abortedNoAirports
  | abortedEmptyFilter
  | finished (routes_de_to_tn routes_tn_to_de : List (String × String))
      (reported : Option (List FareRecord))
deriving DecidableEq, Repr

/-- `TunisairScraper.run` with `USE_PREDEFINED_ROUTES` falsy (dynamic
mode), parameterized by the airport registry answer, the per-route scrape
results, and the exchange rate the run fetches. -/
def tunisairRunDynamic (airports : List Airport)
    (scrapeRoute : String → String → Bool → ℚ → List FareRecord)
    (conversion_rate : ℚ) : TuRunOutcome :=
  if airports.isEmpty then .abortedNoAirports
  else
    let tn := tunisianCodes airports
    let de := germanCodes airports
    if tn.isEmpty || de.isEmpty then .abortedEmptyFilter
    else
      let routes_de_to_tn := listProd de tn
      let routes_tn_to_de := listProd tn de
      let flights :=
        routes_de_to_tn.flatMap (fun r => scrapeRoute r.1 r.2 true 1) ++
          routes_tn_to_de.flatMap (fun r => scrapeRoute r.1 r.2 false conversion_rate)
      .finished routes_de_to_tn routes_tn_to_de
        (if flights.isEmpty then none else some flights)

/-! ## Exchange rate: `TunisairScraper._get_exchange_rate` -/

/-- One response of the exchange-rate service as the code consumes it:
a raised `requests.RequestException` (transport error, timeout or the
`raise_for_status` of a non-2xx response), a 2xx body whose `result`
field is not `"success"`, or a `"success"` body that may or may not carry
`conversion_rates.EUR`. -/
inductive RateResponse (ε : Type)
  | transportError (e : ε)
  | badResult
  | success (eur : Option ℚ)

/-- `exchange_rate_api_key and exchange_rate_api_key != "YOUR_API_KEY"`. -/
def api_key_provided (key : String) : Bool :=
  !(key == "") && !(key == "YOUR_API_KEY")

/-- `self.fallback_eur_rate = 0.29`. -/
def fallback_eur_rate : ℚ := mkRat 29 100

/-- The retry loop of `_get_exchange_rate`: on a transport/status error or
a non-`success` result, move to the next attempt; on a `success` body,
return `conversion_rates['EUR']` — which raises `KeyError` (modelled as
`Except.error ()`) when absent; when the attempts are exhausted, fall back.
Returns the outcome and the number of HTTP requests made. -/
def rateLoop (fetch : Nat → RateResponse ε) : Nat → Nat → Except Unit ℚ × Nat
  | _, 0 => (Except.ok fallback_eur_rate, 0)
  | i, fuel + 1 =>
    match fetch i with
    | .transportError _ =>
      let r := rateLoop fetch (i + 1) fuel
      (r.1, r.2 + 1)
    | .badResult =>
      let r := rateLoop fetch (i + 1) fuel
      (r.1, r.2 + 1)
    | .success none => (Except.error (), 1)
    | .success (some q) => (Except.ok q, 1)

/-- `TunisairScraper._get_exchange_rate`, parameterized by the per-attempt
service responses.  Returns the outcome and the number of HTTP requests
made (0 when no valid key is configured). -/
def get_exchange_rate (api_key : String) (fetch : Nat → RateResponse ε) :
    Except Unit ℚ × Nat :=
  if api_key_provided api_key then rateLoop fetch 0 REQUEST_RETRIES
  else (Except.ok fallback_eur_rate, 0)

/-- The responses on which the retry loop of `_get_exchange_rate` moves to
the next attempt: a raised `RequestException` or a body whose `result`
field is not `"success"`. -/
def RateResponse.isRetryFailure : RateResponse ε → Bool
  | .transportError _ => true
  | .badResult => true
  | .success _ => false

/-- The airport registry of the specification's route-enumeration example:
`[{TUN,TN},{FRA,DE},{MUC,DE}]`. -/
def exampleAirports : List Airport :=
  [⟨"TUN", "Tunis", "TN"⟩, ⟨"FRA", "Frankfurt", "DE"⟩, ⟨"MUC", "Munich", "DE"⟩]

/-- A fake rate service: the first attempt times out, the second returns a
`success` body quoting `EUR = 1/2`. -/
def exampleRateFetch : Nat → RateResponse Unit :=
  fun i => if i = 0 then .transportError () else .success (some (mkRat 1 2))

/-- A fake rate service whose every response is 2xx with a non-`success`
`result` field. -/
def badResultFetch : Nat → RateResponse Unit := fun _ => .badResult

/-- A fake rate service whose every response is 2xx with
`result = "success"` but no `conversion_rates.EUR` entry. -/
def successNoEurFetch : Nat → RateResponse Unit := fun _ => .success none

/-! ### Chunking lemmas -/

theorem chunksOf_nil (c : Nat) : chunksOf c ([] : List α) = [] := by
  simp [chunksOf]

theorem chunksOf_flatten (c : Nat) (xs : List α) : (chunksOf c xs).flatten = xs := by
  have H : ∀ n (xs : List α), xs.length ≤ n → (chunksOf c xs).flatten = xs := by
    intro n
    induction n with
    | zero =>
      intro xs h
      have hx : xs = [] := List.eq_nil_of_length_eq_zero (Nat.le_zero.mp h)
      subst hx; simp [chunksOf]
    | succ n ih =>
      intro xs h
      cases xs with
      | nil => simp [chunksOf]
      | cons x t =>
        have hle : (t.drop (c - 1)).length ≤ n := by
          simp only [List.length_cons] at h
          simp only [List.length_drop]; omega
        simp only [chunksOf, List.flatten_cons]
        rw [ih _ hle]
        simp [List.take_append_drop]
  exact H xs.length xs le_rfl

theorem chunksOf_length_le (c : Nat) (hc : 1 ≤ c) (xs : List α) :
    ∀ l ∈ chunksOf c xs, l.length ≤ c := by
  have H : ∀ n (xs : List α), xs.length ≤ n → ∀ l ∈ chunksOf c xs, l.length ≤ c := by
    intro n
    induction n with
    | zero =>
      intro xs h
      have hx : xs = [] := List.eq_nil_of_length_eq_zero (Nat.le_zero.mp h)
      subst hx; simp [chunksOf]
    | succ n ih =>
      intro xs h
      cases xs with
      | nil => simp [chunksOf]
      | cons x t =>
        have hle : (t.drop (c - 1)).length ≤ n := by
          simp only [List.length_cons] at h
          simp only [List.length_drop]; omega
        intro l hl
        simp only [chunksOf, List.mem_cons] at hl
        rcases hl with rfl | hl
        · simp only [List.length_cons, List.length_take]
          omega
        · exact ih _ hle l hl
  exact H xs.length xs le_rfl

theorem chunksOf_length (c : Nat) (hc : 1 ≤ c) (xs : List α) :
    (chunksOf c xs).length = (xs.length + (c - 1)) / c := by
  have H : ∀ n (xs : List α), xs.length ≤ n →
      (chunksOf c xs).length = (xs.length + (c - 1)) / c := by
    intro n
    induction n with
    | zero =>
      intro xs h
      have hx : xs = [] := List.eq_nil_of_length_eq_zero (Nat.le_zero.mp h)
      subst hx
      simp only [chunksOf, List.length_nil, Nat.zero_add]
      exact (Nat.div_eq_of_lt (by omega)).symm
    | succ n ih =>
      intro xs h
      cases xs with
      | nil =>
        simp only [chunksOf, List.length_nil, Nat.zero_add]
        exact (Nat.div_eq_of_lt (by omega)).symm
      | cons x t =>
        have hle : (t.drop (c - 1)).length ≤ n := by
          simp only [List.length_cons] at h
          simp only [List.length_drop]; omega
        simp only [chunksOf, List.length_cons]
        rw [ih _ hle]
        simp only [List.length_drop]
        have hc0 : 0 < c := hc
        have hnc : t.length + 1 + (c - 1) = t.length + c := by omega
        rw [hnc, Nat.add_div_right _ hc0]
        rcases Nat.le_total (c - 1) t.length with h2 | h2
        · have h1 : t.length - (c - 1) + (c - 1) = t.length := by omega
          rw [h1]
        · have h1 : t.length - (c - 1) = 0 := by omega
          rw [h1]
          have h3 : (0 + (c - 1)) / c = 0 := Nat.div_eq_of_lt (by omega)
          have h4 : t.length / c = 0 := Nat.div_eq_of_lt (by omega)
          omega
  exact H xs.length xs le_rfl

/-! ### Reporting-client behaviour -/

theorem runAttempts_all_ok (trans : Nat → Except ε Unit)
    (h : ∀ a, trans a = Except.ok ()) : runAttempts trans = ([true], none) := by
  simp [runAttempts, h]

theorem reportChunks_all_ok (trans : Nat → Nat → Except ε Unit)
    (h : ∀ i a, trans i a = Except.ok ()) :
    ∀ (cs : List (List α)) (k : Nat),
      reportChunks trans k cs =
        ⟨cs, (List.range' k cs.length).map (fun i => (i, true)), none⟩ := by
  intro cs
  induction cs with
  | nil => intro k; simp [reportChunks, List.range']
  | cons c cs ih =>
    intro k
    have hr : runAttempts (fun j => trans k j) = ([true], none) :=
      runAttempts_all_ok _ (fun a => h k a)
    simp only [reportChunks, hr, ih (k + 1), List.length_cons, List.range'_succ]
    simp

theorem reportChunks_fail_aux (trans : Nat → Nat → Except ε Unit) (err : ε) :
    ∀ (k : Nat) (cs : List (List α)) (j : Nat),
      k < cs.length →
      (∀ i, i < k → (runAttempts (fun a => trans (j + i) a)).2 = none) →
      (runAttempts (fun a => trans (j + k) a)).2 = some err →
      (reportChunks trans j cs).sent = cs.take k ∧
      (reportChunks trans j cs).err = some err ∧
      ∀ p ∈ (reportChunks trans j cs).trace, p.1 ≤ j + k := by
  intro k
  induction k with
  | zero =>
    intro cs j hk hpre hfail
    cases cs with
    | nil => simp at hk
    | cons c cs =>
      simp only [Nat.add_zero] at hfail
      obtain ⟨att, e2, hra⟩ : ∃ att e2, runAttempts (fun a => trans j a) = (att, e2) :=
        ⟨_, _, rfl⟩
      rw [hra] at hfail
      simp only at hfail
      subst hfail
      have hrc : reportChunks trans j (c :: cs) =
          ⟨[], att.map (fun b => (j, b)), some err⟩ := by
        simp only [reportChunks, hra]
      rw [hrc]
      refine ⟨by simp, rfl, ?_⟩
      intro p hp
      simp only [List.mem_map] at hp
      obtain ⟨b, _, rfl⟩ := hp
      simp
  | succ k ih =>
    intro cs j hk hpre hfail
    cases cs with
    | nil => simp at hk
    | cons c cs =>
      have h0 : (runAttempts (fun a => trans j a)).2 = none := by
        have := hpre 0 (by omega)
        simpa using this
      obtain ⟨att, e2, hra⟩ : ∃ att e2, runAttempts (fun a => trans j a) = (att, e2) :=
        ⟨_, _, rfl⟩
      rw [hra] at h0
      simp only at h0
      subst h0
      have hpre' : ∀ i, i < k → (runAttempts (fun a => trans (j + 1 + i) a)).2 = none := by
        intro i hi
        have heq : j + 1 + i = j + (i + 1) := by omega
        rw [heq]
        exact hpre (i + 1) (by omega)
      have hfail' : (runAttempts (fun a => trans (j + 1 + k) a)).2 = some err := by
        have heq : j + 1 + k = j + (k + 1) := by omega
        rw [heq]
        exact hfail
      have hk' : k < cs.length := by
        simp only [List.length_cons] at hk
        omega
      obtain ⟨hs, he, ht⟩ := ih cs (j + 1) hk' hpre' hfail'
      have hrc : reportChunks trans j (c :: cs) =
          ⟨c :: (reportChunks trans (j + 1) cs).sent,
           att.map (fun b => (j, b)) ++ (reportChunks trans (j + 1) cs).trace,
           (reportChunks trans (j + 1) cs).err⟩ := by
        simp only [reportChunks, hra]
      rw [hrc]
      refine ⟨by simp [hs], by simp [he], ?_⟩
      intro p hp
      simp only [List.mem_append, List.mem_map] at hp
      rcases hp with ⟨b, _, rfl⟩ | hp
      · simp
      · have := ht p hp
        omega

theorem runAttempts_all_fail (trans : Nat → Except ε Unit) (es : Nat → ε)
    (h : ∀ a, a < 3 → trans a = Except.error (es a)) :
    runAttempts trans = ([false, false, false], some (es 2)) := by
  have h0 := h 0 (by omega)
  have h1 := h 1 (by omega)
  have h2 := h 2 (by omega)
  simp [runAttempts, h0, h1, h2]

/-- C1: with a transport on which every POST returns 2xx,
`report_scraped_data` on `N` records raises nothing, sends exactly the
slices `records[i:i+150]` in input order (so their concatenation is the
input and each carries at most 150 records), makes exactly
`(N + 149) / 150 = ceil(N / 150)` POST calls, and for `N = 0` returns
without making any POST call. -/
theorem report_scraped_data_all_success (trans : Nat → Nat → Except ε Unit)
    (records : List α) (h : ∀ i a, trans i a = Except.ok ()) :
    (report_scraped_data trans records).err = none ∧
    (report_scraped_data trans records).sent = chunksOf 150 records ∧
    (report_scraped_data trans records).trace.length = (records.length + 149) / 150 ∧
    (report_scraped_data trans records).sent.flatten = records ∧
    (∀ ch ∈ (report_scraped_data trans records).sent, ch.length ≤ 150) ∧
    (records = [] → (report_scraped_data trans records).trace = []) := by
  cases records with
  | nil =>
    refine ⟨rfl, by simp [report_scraped_data, chunksOf], by simp [report_scraped_data], rfl,
      by simp [report_scraped_data], fun _ => rfl⟩
  | cons x t =>
    have hne : (x :: t).isEmpty = false := rfl
    have hrep : report_scraped_data trans (x :: t) =
        reportChunks trans 0 (chunksOf 150 (x :: t)) := by
      simp [report_scraped_data, hne, POST_CHUNK_SIZE]
    rw [hrep, reportChunks_all_ok trans h _ 0]
    refine ⟨rfl, rfl, ?_, chunksOf_flatten 150 (x :: t),
      chunksOf_length_le 150 (by omega) (x :: t), by simp⟩
    simp [chunksOf_length 150 (by omega)]

/-- Witness for C1 at a concrete input: 3 records, an always-succeeding
transport; one chunk of 3 records is sent, in one POST. -/
theorem report_scraped_data_all_success_witness :
    (report_scraped_data alwaysOkTransport [10, 20, 30]).err = none ∧
    (report_scraped_data alwaysOkTransport [10, 20, 30]).sent =
      chunksOf 150 [10, 20, 30] ∧
    (report_scraped_data alwaysOkTransport [10, 20, 30]).trace.length =
      (([10, 20, 30] : List Nat).length + 149) / 150 ∧
    (report_scraped_data alwaysOkTransport [10, 20, 30]).sent.flatten =
      [10, 20, 30] ∧
    (∀ ch ∈ (report_scraped_data alwaysOkTransport [10, 20, 30]).sent,
      ch.length ≤ 150) ∧
    (([10, 20, 30] : List Nat) = [] →
      (report_scraped_data alwaysOkTransport [10, 20, 30]).trace = []) :=
  report_scraped_data_all_success alwaysOkTransport [10, 20, 30]
    (fun _ _ => rfl)

/-- C2: if chunks `0..k-1` each eventually succeed and every one of the 3
POST attempts for chunk `k` raises, `report_scraped_data` raises the error
of the last (third) attempt; exactly the chunks before `k` have been sent,
each exactly once and in order, and no chunk after `k` is ever attempted. -/
theorem report_scraped_data_chunk_failure (trans : Nat → Nat → Except ε Unit)
    (records : List α) (k : Nat) (es : Nat → ε)
    (hk : k < (chunksOf 150 records).length)
    (hpre : ∀ i, i < k → (runAttempts (fun a => trans i a)).2 = none)
    (hfail : ∀ a, a < 3 → trans k a = Except.error (es a)) :
    (report_scraped_data trans records).sent = (chunksOf 150 records).take k ∧
    (report_scraped_data trans records).err = some (es 2) ∧
    ∀ p ∈ (report_scraped_data trans records).trace, p.1 ≤ k := by
  cases records with
  | nil => simp [chunksOf] at hk
  | cons x t =>
    have hne : (x :: t).isEmpty = false := rfl
    have hrep : report_scraped_data trans (x :: t) =
        reportChunks trans 0 (chunksOf 150 (x :: t)) := by
      simp [report_scraped_data, hne, POST_CHUNK_SIZE]
    have hfa : (runAttempts (fun a => trans (0 + k) a)).2 = some (es 2) := by
      rw [Nat.zero_add, runAttempts_all_fail (fun a => trans k a) es hfail]
    have hpre0 : ∀ i, i < k → (runAttempts (fun a => trans (0 + i) a)).2 = none := by
      intro i hi
      rw [Nat.zero_add]
      exact hpre i hi
    obtain ⟨hs, he, ht⟩ :=
      reportChunks_fail_aux trans (es 2) k (chunksOf 150 (x :: t)) 0 hk hpre0 hfa
    rw [hrep]
    exact ⟨hs, he, fun p hp => by have := ht p hp; omega⟩

/-- Witness for C2: 151 records make two chunks; chunk 0 succeeds, every
attempt on chunk 1 raises; the call raises the last error, only chunk 0 was
sent, and no POST targeted a chunk after index 1. -/
theorem report_scraped_data_chunk_failure_witness :
    (report_scraped_data failAfterFirstChunkTransport
        (List.replicate 151 (7 : Nat))).sent =
      (chunksOf 150 (List.replicate 151 (7 : Nat))).take 1 ∧
    (report_scraped_data failAfterFirstChunkTransport
        (List.replicate 151 (7 : Nat))).err = some 2 ∧
    ∀ p ∈ (report_scraped_data failAfterFirstChunkTransport
        (List.replicate 151 (7 : Nat))).trace, p.1 ≤ 1 :=
  report_scraped_data_chunk_failure failAfterFirstChunkTransport
    (List.replicate 151 (7 : Nat)) 1 (fun a => a)
    (by rw [chunksOf_length 150 (by omega) (List.replicate 151 (7 : Nat))]
        norm_num)
    (by intro i hi
        have h : i = 0 := by omega
        subst h; rfl)
    (by intro a _; rfl)

/-- C10: constructing a `BackendApiClient` with an empty `base_url` raises
`ValueError`; with any non-empty `base_url` it succeeds and stores it. -/
theorem mkBackendApiClient_spec :
    mkBackendApiClient "" = Except.error "Backend base_url cannot be empty." ∧
    ∀ s : String, s ≠ "" → mkBackendApiClient s = Except.ok ⟨s⟩ := by
  refine ⟨rfl, ?_⟩
  intro s hs
  simp [mkBackendApiClient, hs]

/-- Witness for C10 at a concrete non-empty URL. -/
theorem mkBackendApiClient_spec_witness :
    mkBackendApiClient "http://backend" = Except.ok ⟨"http://backend"⟩ :=
  mkBackendApiClient_spec.2 "http://backend" (by decide)

/-! ### Bridges between the kernel-friendly rational operations and `ℚ` -/

theorem qmul_eq (a b : ℚ) : qmul a b = a * b := by
  rw [qmul, Rat.mul_def, Rat.normalize_eq_mkRat]

theorem qsub_eq (a b : ℚ) : qsub a b = a - b := by
  rw [qsub, Rat.sub_def']

theorem qltb_iff (a b : ℚ) : qltb a b = true ↔ a < b := by
  simp [qltb, Rat.lt_def]

theorem qleb_iff (a b : ℚ) : qleb a b = true ↔ a ≤ b := by
  simp [qleb, Rat.le_def]

theorem qleb_false_iff (a b : ℚ) : qleb a b = false ↔ b < a := by
  simp only [qleb, decide_eq_false_iff_not, not_le, Rat.lt_def]

/-! ### Product and membership lemmas for route enumeration -/

theorem mem_listProd (xs : List α) (ys : List β) (a : α) (b : β) :
    (a, b) ∈ listProd xs ys ↔ a ∈ xs ∧ b ∈ ys := by
  simp [listProd, List.mem_flatMap, List.mem_map]

theorem listProd_nil_left (ys : List β) : listProd ([] : List α) ys = [] := rfl

theorem listProd_nil_right (xs : List α) : listProd xs ([] : List β) = [] := by
  simp [listProd]

/-! ### Inversion of the extractors -/

theorem nouvelairExtractEntry_some (dep arr : String) (e : NvEntry)
    (rec : FareRecord) (h : nouvelairExtractEntry dep arr e = some rec) :
    ∃ p d, e.price.bind pyFloat = some p ∧ e.date.bind parseDate = some d ∧
      qleb p 0 = false ∧
      rec = ⟨isoFormatMidnight d, p, p, dep, arr, AIRLINE_CODE_BJ⟩ := by
  unfold nouvelairExtractEntry at h
  split at h
  · simp at h
  · rename_i p hp
    by_cases hq : qleb p 0 = true
    · rw [if_pos hq] at h; simp at h
    · rw [if_neg hq] at h
      split at h
      · simp at h
      · rename_i d hd
        simp only [Option.some.injEq] at h
        refine ⟨p, d, hp, hd, ?_, h.symm⟩
        simpa using hq

theorem extractPriceCell_some (eur : Bool) (rate : ℚ) (td : PriceCell)
    (rec : TnFlightData) (h : extractPriceCell eur rate td = some rec) :
    ∃ ds pt d, td.dataDeparture = some ds ∧ td.priceText = some pt ∧
      parseDate ds = some d ∧ rec.departureDate = isoFormatMidnight d ∧
      ((eur = true ∧ containsSub "EUR".data pt.data = true ∧
        ∃ v, pyFloat (cleanPrice "EUR" pt) = some v ∧
          rec.price = pyRound 2 v ∧ rec.priceEur = rec.price) ∨
       (eur = false ∧ containsSub "TND".data pt.data = true ∧
        ∃ v, pyFloat (cleanPrice "TND" pt) = some v ∧
          rec.price = pyRound 3 v ∧
          rec.priceEur = pyRound 2 (qmul rec.price rate))) := by
  unfold extractPriceCell at h
  split at h
  · rename_i ds pt hds hpt
    by_cases hskip : ds = "" ∨ pt = "" ∨ pt = "-"
    · rw [if_pos hskip] at h; simp at h
    · rw [if_neg hskip] at h
      split at h
      · simp at h
      · rename_i d hd
        by_cases he : (eur && containsSub "EUR".data pt.data) = true
        · rw [if_pos he] at h
          split at h
          · simp at h
          · rename_i v hv
            simp only [Option.some.injEq] at h
            obtain ⟨heur, hc⟩ := Bool.and_eq_true .. |>.mp he
            subst h
            exact ⟨ds, pt, d, hds, hpt, hd, rfl,
              Or.inl ⟨heur, hc, v, hv, rfl, rfl⟩⟩
        · rw [if_neg he] at h
          by_cases ht : (!eur && containsSub "TND".data pt.data) = true
          · rw [if_pos ht] at h
            split at h
            · simp at h
            · rename_i v hv
              simp only [Option.some.injEq] at h
              obtain ⟨heur, hc⟩ := Bool.and_eq_true .. |>.mp ht
              subst h
              exact ⟨ds, pt, d, hds, hpt, hd, rfl,
                Or.inr ⟨by simpa using heur, hc, v, hv, rfl, rfl⟩⟩
          · rw [if_neg ht] at h
            simp at h
  · simp at h

/-! ### Claims about the extractors -/

/-- C3 counterexample: the claim fails on the Tunisair markup extractor.
`_extract_prices` performs no positivity check, so the accepted cell
`"0,00 EUR"` produces a record with `price = 0`: it is not the case that
every extracted record has positive price. -/
theorem tunisair_nonpositive_price_counterexample :
    ¬ ∀ rec ∈ extract_prices [⟨some "2025-03-01", some "0,00 EUR"⟩] true
        (mkRat 29 100), 0 < rec.price := by
  decide

/-- C3 (amended): the Nouvelair JSON-entry loop never emits a record with
non-positive price, and both extractors drop entries whose date or price
fails to parse; but the Tunisair markup extractor performs no positivity
check: every Tunisair record merely comes from a cell with a parsable
`data-departure` date and a parsable price string of the expected
currency. -/
theorem extractors_drop_malformed :
    (∀ (dep arr : String) (entries : List NvEntry) (rec : FareRecord),
      rec ∈ nouvelairExtract dep arr entries → 0 < rec.price) ∧
    (∀ (cells : List PriceCell) (eur : Bool) (rate : ℚ) (rec : TnFlightData),
      rec ∈ extract_prices cells eur rate →
      ∃ td ∈ cells, ∃ ds pt d,
        td.dataDeparture = some ds ∧ td.priceText = some pt ∧
        parseDate ds = some d ∧
        ∃ v, pyFloat (cleanPrice (if eur then "EUR" else "TND") pt) = some v) := by
  constructor
  · intro dep arr entries rec hmem
    rw [nouvelairExtract, List.mem_filterMap] at hmem
    obtain ⟨e, _, he⟩ := hmem
    obtain ⟨p, d, _, _, hpos, hrec⟩ := nouvelairExtractEntry_some dep arr e rec he
    subst hrec
    exact (qleb_false_iff p 0).mp hpos
  · intro cells eur rate rec hmem
    rw [extract_prices, List.mem_filterMap] at hmem
    obtain ⟨td, htd, he⟩ := hmem
    obtain ⟨ds, pt, d, h1, h2, h3, _, hcase⟩ := extractPriceCell_some eur rate td rec he
    rcases hcase with ⟨heur, _, v, hv, _⟩ | ⟨heur, _, v, hv, _⟩
    · subst heur
      exact ⟨td, htd, ds, pt, d, h1, h2, h3, v, hv⟩
    · subst heur
      exact ⟨td, htd, ds, pt, d, h1, h2, h3, v, hv⟩

/-- Witness for C3 (amended) at a concrete input: a Nouvelair entry priced
`"89.5"` yields a record and its price is positive. -/
theorem extractors_drop_malformed_witness :
    0 < (FareRecord.mk "2025-04-02T00:00:00" (mkRat 895 10) (mkRat 895 10)
      "TUN" "FRA" "BJ").price :=
  extractors_drop_malformed.1 "TUN" "FRA" [⟨some "89.5", some "2025-04-02"⟩]
    ⟨"2025-04-02T00:00:00", mkRat 895 10, mkRat 895 10, "TUN", "FRA", "BJ"⟩
    (by decide)

/-- C8: in EUR-native mode every accepted cell yields
`price = round(·, 2)` with `priceEur` the very same value; in TND mode
every accepted cell yields `price = round(·, 3)` and
`priceEur = round(price * rate, 2)`; and on the concrete cell
`"45,678 TND"` with rate `0.29 = 29/100` the extractor emits
`price = 45.678 = 45678/1000` and `priceEur = 13.25 = 1325/100`. -/
theorem extract_prices_rounding (cells : List PriceCell) (rate : ℚ) :
    (∀ rec ∈ extract_prices cells true rate,
      rec.priceEur = rec.price ∧ ∃ v, rec.price = pyRound 2 v) ∧
    (∀ rec ∈ extract_prices cells false rate,
      ∃ v, rec.price = pyRound 3 v ∧
        rec.priceEur = pyRound 2 (rec.price * rate)) ∧
    extract_prices [⟨some "2025-03-01", some "45,678 TND"⟩] false (mkRat 29 100) =
      [⟨mkRat 45678 1000, mkRat 1325 100, "2025-03-01T00:00:00"⟩] := by
  refine ⟨?_, ?_, by decide⟩
  · intro rec hmem
    rw [extract_prices, List.mem_filterMap] at hmem
    obtain ⟨td, _, he⟩ := hmem
    obtain ⟨ds, pt, d, _, _, _, _, hcase⟩ := extractPriceCell_some true rate td rec he
    rcases hcase with ⟨_, _, v, _, hp, hpe⟩ | ⟨hfalse, _⟩
    · exact ⟨hpe, v, hp⟩
    · exact absurd hfalse (by simp)
  · intro rec hmem
    rw [extract_prices, List.mem_filterMap] at hmem
    obtain ⟨td, _, he⟩ := hmem
    obtain ⟨ds, pt, d, _, _, _, _, hcase⟩ := extractPriceCell_some false rate td rec he
    rcases hcase with ⟨hfalse, _⟩ | ⟨_, _, v, _, hp, hpe⟩
    · exact absurd hfalse (by simp)
    · exact ⟨v, hp, by rw [hpe, qmul_eq]⟩

/-- Witness for C8 at a concrete input: the record extracted from the cell
`"123,45 EUR"` in EUR-native mode has `priceEur` equal to its `price`, a
2-decimal rounded value. -/
theorem extract_prices_rounding_witness :
    (TnFlightData.mk (mkRat 12345 100) (mkRat 12345 100)
        "2025-03-01T00:00:00").priceEur =
      (TnFlightData.mk (mkRat 12345 100) (mkRat 12345 100)
        "2025-03-01T00:00:00").price ∧
    ∃ v, (TnFlightData.mk (mkRat 12345 100) (mkRat 12345 100)
        "2025-03-01T00:00:00").price = pyRound 2 v :=
  (extract_prices_rounding [⟨some "2025-03-01", some "123,45 EUR"⟩]
      (mkRat 29 100)).1
    ⟨mkRat 12345 100, mkRat 12345 100, "2025-03-01T00:00:00"⟩ (by decide)

/-! ### Claims about route enumeration and run control flow -/

/-- C4 counterexample: the claim fails on the Nouvelair scraper.  With a
registry holding a German airport but no Tunisian one, the
origin-country filtered set is empty, yet `NouvelairScraper.run` does not
abort: it proceeds past every early return with an empty route list and
reaches the end of the run (outcome `finished [] none`, `isAborted`
false). -/
theorem nouvelair_empty_filter_counterexample :
    nouvelairRun (some "captured-key") [⟨"FRA", "Frankfurt", "DE"⟩]
        (fun _ _ => []) = NvRunOutcome.finished [] none ∧
    tunisianCodes [⟨"FRA", "Frankfurt", "DE"⟩] = [] ∧
    (nouvelairRun (some "captured-key") [⟨"FRA", "Frankfurt", "DE"⟩]
        (fun _ _ => [])).isAborted = false :=
  ⟨rfl, rfl, rfl⟩

/-- C4 (amended): with a non-empty airport list in which either filtered
country set is empty, the Tunisair dynamic run aborts explicitly, while
the Nouvelair run does not abort but proceeds with an empty route list —
so it also scrapes no routes and reports nothing. -/
theorem dynamic_empty_filter (airports : List Airport) (key : String)
    (avail : String → String → List NvEntry)
    (scrape : String → String → Bool → ℚ → List FareRecord) (rate : ℚ)
    (hne : airports ≠ [])
    (hempty : tunisianCodes airports = [] ∨ germanCodes airports = []) :
    tunisairRunDynamic airports scrape rate = TuRunOutcome.abortedEmptyFilter ∧
    nouvelairRun (some key) airports avail = NvRunOutcome.finished [] none ∧
    nouvelairRoutes airports = [] := by
  have hie : airports.isEmpty = false := by
    cases airports with
    | nil => exact absurd rfl hne
    | cons a t => rfl
  have hroutes : nouvelairRoutes airports = [] := by
    rcases hempty with h | h <;>
      simp [nouvelairRoutes, h, listProd_nil_left, listProd_nil_right]
  refine ⟨?_, ?_, hroutes⟩
  · have hor : ((tunisianCodes airports).isEmpty ||
        (germanCodes airports).isEmpty) = true := by
      rcases hempty with h | h <;> simp [h]
    simp [tunisairRunDynamic, hie, hor]
  · simp [nouvelairRun, hie, hroutes]

/-- Witness for C4 (amended) at a concrete registry with one German
airport and no Tunisian airport. -/
theorem dynamic_empty_filter_witness :
    tunisairRunDynamic [⟨"FRA", "Frankfurt", "DE"⟩] (fun _ _ _ _ => []) 1 =
      TuRunOutcome.abortedEmptyFilter ∧
    nouvelairRun (some "k") [⟨"FRA", "Frankfurt", "DE"⟩] (fun _ _ => []) =
      NvRunOutcome.finished [] none ∧
    nouvelairRoutes [⟨"FRA", "Frankfurt", "DE"⟩] = [] :=
  dynamic_empty_filter [⟨"FRA", "Frankfurt", "DE"⟩] "k" (fun _ _ => [])
    (fun _ _ _ _ => []) 1 (by decide) (Or.inl rfl)

/-- C7: a pair is a dynamic Nouvelair route exactly when it crosses the
two country filters in one of the two directions; and on the registry
`[{TUN,TN},{FRA,DE},{MUC,DE}]` the Nouvelair enumeration is exactly
`[(TUN,FRA),(TUN,MUC),(FRA,TUN),(MUC,TUN)]` while the Tunisair dynamic
run scrapes exactly `[(FRA,TUN),(MUC,TUN)]` then `[(TUN,FRA),(TUN,MUC)]` —
the same 4 directional pairs, with `(A,B)` and `(B,A)` distinct. -/
theorem dynamic_routes_cross_product :
    (∀ (airports : List Airport) (a b : String),
      (a, b) ∈ nouvelairRoutes airports ↔
        (a ∈ tunisianCodes airports ∧ b ∈ germanCodes airports) ∨
        (a ∈ germanCodes airports ∧ b ∈ tunisianCodes airports)) ∧
    nouvelairRoutes exampleAirports =
      [("TUN", "FRA"), ("TUN", "MUC"), ("FRA", "TUN"), ("MUC", "TUN")] ∧
    tunisairRunDynamic exampleAirports (fun _ _ _ _ => []) 1 =
      TuRunOutcome.finished [("FRA", "TUN"), ("MUC", "TUN")]
        [("TUN", "FRA"), ("TUN", "MUC")] none := by
  refine ⟨?_, by decide, by decide⟩
  intro airports a b
  simp [nouvelairRoutes, List.mem_append, mem_listProd]

/-- Witness for C7 at the example registry and the pair (TUN, FRA). -/
theorem dynamic_routes_cross_product_witness :
    ("TUN", "FRA") ∈ nouvelairRoutes exampleAirports ↔
      ("TUN" ∈ tunisianCodes exampleAirports ∧
        "FRA" ∈ germanCodes exampleAirports) ∨
      ("TUN" ∈ germanCodes exampleAirports ∧
        "FRA" ∈ tunisianCodes exampleAirports) :=
  dynamic_routes_cross_product.1 exampleAirports "TUN" "FRA"

theorem nouvelairRun_finished_inv (key : String) (airports : List Airport)
    (avail : String → String → List NvEntry)
    (routes : List (String × String)) (fl : List FareRecord)
    (h : nouvelairRun (some key) airports avail =
      NvRunOutcome.finished routes (some fl)) :
    fl = (nouvelairRoutes airports).flatMap
      (fun r => nouvelairExtract r.1 r.2 (avail r.1 r.2)) := by
  simp only [nouvelairRun] at h
  by_cases hie : airports.isEmpty = true
  · rw [if_pos hie] at h; simp at h
  · rw [if_neg hie] at h
    simp only [NvRunOutcome.finished.injEq] at h
    obtain ⟨-, h2⟩ := h
    by_cases hfe : ((nouvelairRoutes airports).flatMap
        (fun r => nouvelairExtract r.1 r.2 (avail r.1 r.2))).isEmpty = true
    · rw [if_pos hfe] at h2; simp at h2
    · rw [if_neg hfe] at h2
      simp only [Option.some.injEq] at h2
      exact h2.symm

/-- C9: every record assembled by the Nouvelair scraper has
`priceEur` exactly equal to `price` — per entry, and for the whole batch
of a finished run — and the availability request it builds always carries
the fixed `currency_id = CURRENCY_ID = 2` (the EUR denomination). -/
theorem nouvelair_priceEur_eq_price :
    (∀ (dep arr : String) (entries : List NvEntry) (rec : FareRecord),
      rec ∈ nouvelairExtract dep arr entries → rec.priceEur = rec.price) ∧
    (∀ (key : String) (airports : List Airport)
        (avail : String → String → List NvEntry)
        (routes : List (String × String)) (fl : List FareRecord),
      nouvelairRun (some key) airports avail =
        NvRunOutcome.finished routes (some fl) →
      ∀ rec ∈ fl, rec.priceEur = rec.price) ∧
    (∀ dep dest : String,
      (nouvelairAvailabilityParams dep dest).currency_id = CURRENCY_ID ∧
        CURRENCY_ID = 2) := by
  have hext : ∀ (dep arr : String) (entries : List NvEntry) (rec : FareRecord),
      rec ∈ nouvelairExtract dep arr entries → rec.priceEur = rec.price := by
    intro dep arr entries rec hmem
    rw [nouvelairExtract, List.mem_filterMap] at hmem
    obtain ⟨e, _, he⟩ := hmem
    obtain ⟨p, d, _, _, _, hrec⟩ := nouvelairExtractEntry_some dep arr e rec he
    subst hrec
    rfl
  refine ⟨hext, ?_, fun _ _ => ⟨rfl, rfl⟩⟩
  intro key airports avail routes fl hrun rec hmem
  rw [nouvelairRun_finished_inv key airports avail routes fl hrun,
    List.mem_flatMap] at hmem
  obtain ⟨r, _, hr⟩ := hmem
  exact hext r.1 r.2 _ rec hr

/-- Witness for C9 at a concrete entry: the extracted record has
`priceEur = price`. -/
theorem nouvelair_priceEur_eq_price_witness :
    (FareRecord.mk "2025-05-01T00:00:00" (mkRat 1205 10) (mkRat 1205 10)
        "DJE" "MUC" "BJ").priceEur =
      (FareRecord.mk "2025-05-01T00:00:00" (mkRat 1205 10) (mkRat 1205 10)
        "DJE" "MUC" "BJ").price :=
  nouvelair_priceEur_eq_price.1 "DJE" "MUC"
    [⟨some "120.5", some "2025-05-01"⟩]
    ⟨"2025-05-01T00:00:00", mkRat 1205 10, mkRat 1205 10, "DJE", "MUC", "BJ"⟩
    (by decide)

/-! ### Claims about the exchange-rate lookup -/

/-- C5: with the key empty or equal to the `"YOUR_API_KEY"` placeholder,
`_get_exchange_rate` returns the hardcoded fallback `0.29 = 29/100` and
makes no HTTP request, whatever the rate service would answer. -/
theorem get_exchange_rate_no_key (key : String)
    (fetch : Nat → RateResponse ε) (h : key = "" ∨ key = "YOUR_API_KEY") :
    get_exchange_rate key fetch = (Except.ok fallback_eur_rate, 0) ∧
    fallback_eur_rate = mkRat 29 100 := by
  rcases h with rfl | rfl <;> exact ⟨rfl, rfl⟩

/-- Witness for C5 with the placeholder key and a service that would
answer `badResult`: the fallback is returned after zero requests. -/
theorem get_exchange_rate_no_key_witness :
    get_exchange_rate "YOUR_API_KEY" badResultFetch =
      (Except.ok fallback_eur_rate, 0) ∧
    fallback_eur_rate = mkRat 29 100 :=
  get_exchange_rate_no_key "YOUR_API_KEY" badResultFetch (Or.inr rfl)

theorem rateLoop_calls_le (fetch : Nat → RateResponse ε) :
    ∀ (fuel i : Nat), (rateLoop fetch i fuel).2 ≤ fuel := by
  intro fuel
  induction fuel with
  | zero => intro i; simp [rateLoop]
  | succ n ih =>
    intro i
    have h1 := ih (i + 1)
    cases hf : fetch i with
    | transportError e => simp only [rateLoop, hf]; omega
    | badResult => simp only [rateLoop, hf]; omega
    | success eur =>
      cases eur <;> simp [rateLoop, hf]

theorem rateLoop_all_fail (fetch : Nat → RateResponse ε) :
    ∀ (fuel i : Nat),
      (∀ j, j < fuel → (fetch (i + j)).isRetryFailure = true) →
      rateLoop fetch i fuel = (Except.ok fallback_eur_rate, fuel) := by
  intro fuel
  induction fuel with
  | zero => intro i _; rfl
  | succ n ih =>
    intro i hall
    have h0 : (fetch i).isRetryFailure = true := by
      simpa using hall 0 (by omega)
    have hrec := ih (i + 1) (fun j hj => by
      have hx := hall (j + 1) (by omega)
      rwa [show i + (j + 1) = i + 1 + j by omega] at hx)
    cases hf : fetch i with
    | transportError e => simp [rateLoop, hf, hrec]
    | badResult => simp [rateLoop, hf, hrec]
    | success eur =>
      rw [hf] at h0
      simp [RateResponse.isRetryFailure] at h0

theorem rateLoop_success (fetch : Nat → RateResponse ε) :
    ∀ (j fuel i : Nat) (q : ℚ), j < fuel →
      (∀ a, a < j → (fetch (i + a)).isRetryFailure = true) →
      fetch (i + j) = RateResponse.success (some q) →
      rateLoop fetch i fuel = (Except.ok q, j + 1) := by
  intro j
  induction j with
  | zero =>
    intro fuel i q hfuel hpre hsucc
    cases fuel with
    | zero => omega
    | succ n =>
      simp only [Nat.add_zero] at hsucc
      simp [rateLoop, hsucc]
  | succ k ih =>
    intro fuel i q hfuel hpre hsucc
    cases fuel with
    | zero => omega
    | succ n =>
      have h0 : (fetch i).isRetryFailure = true := by
        simpa using hpre 0 (by omega)
      have hrec := ih n (i + 1) q (by omega)
        (fun a ha => by
          have hx := hpre (a + 1) (by omega)
          rwa [show i + (a + 1) = i + 1 + a by omega] at hx)
        (by rwa [show i + (k + 1) = i + 1 + k by omega] at hsucc)
      cases hf : fetch i with
      | transportError e => simp [rateLoop, hf, hrec]
      | badResult => simp [rateLoop, hf, hrec]
      | success eur =>
        rw [hf] at h0
        simp [RateResponse.isRetryFailure] at h0

/-- C6 counterexample: the claim's conclusion that the run never fails
because of the rate service is false.  With a credential configured and a
first response that is 2xx with `result = "success"` but no
`conversion_rates.EUR` entry, `_get_exchange_rate` raises an uncaught
`KeyError` (modelled `Except.error ()`) after one request. -/
theorem get_exchange_rate_keyerror_counterexample :
    get_exchange_rate "realkey" successNoEurFetch = (Except.error (), 1) :=
  rfl

/-- C6 (amended): with a credential configured, `_get_exchange_rate`
makes at most 3 requests; if every attempt fails retriably (transport
error, non-2xx, or `result ≠ "success"`) it returns the hardcoded
fallback instead of raising; and on the first `success` response that
carries an EUR rate it returns that parsed rate.  (A `success` response
missing the EUR entry, however, raises an uncaught `KeyError` — see the
counterexample.) -/
theorem get_exchange_rate_retry_behavior (key : String)
    (fetch : Nat → RateResponse ε) (hkey : api_key_provided key = true) :
    (get_exchange_rate key fetch).2 ≤ 3 ∧
    ((∀ i, i < 3 → (fetch i).isRetryFailure = true) →
      get_exchange_rate key fetch = (Except.ok fallback_eur_rate, 3)) ∧
    (∀ (j : Nat) (q : ℚ), j < 3 →
      (∀ a, a < j → (fetch a).isRetryFailure = true) →
      fetch j = RateResponse.success (some q) →
      get_exchange_rate key fetch = (Except.ok q, j + 1)) := by
  have hgr : get_exchange_rate key fetch = rateLoop fetch 0 3 := by
    simp [get_exchange_rate, hkey, REQUEST_RETRIES]
  rw [hgr]
  refine ⟨rateLoop_calls_le fetch 3 0, ?_, ?_⟩
  · intro hall
    exact rateLoop_all_fail fetch 3 0 (fun j hj => by
      simpa using hall j hj)
  · intro j q hj hpre hsucc
    exact rateLoop_success fetch j 3 0 q hj
      (fun a ha => by simpa using hpre a ha)
      (by simpa using hsucc)

/-- Witness for C6 (amended): a service timing out once then answering
`EUR = 1/2` leads to that rate after exactly 2 requests, and the request
count is within the cap. -/
theorem get_exchange_rate_retry_behavior_witness :
    (get_exchange_rate "realkey" exampleRateFetch).2 ≤ 3 ∧
    get_exchange_rate "realkey" exampleRateFetch =
      (Except.ok (mkRat 1 2), 2) :=
  ⟨(get_exchange_rate_retry_behavior "realkey" exampleRateFetch
      (by decide)).1,
   (get_exchange_rate_retry_behavior "realkey" exampleRateFetch
      (by decide)).2.2 1 (mkRat 1 2) (by omega)
     (fun a ha => by
       have h : a = 0 := by omega
       subst h; rfl)
     rfl⟩
